import Mathlib

/-!
Verification of the quickjscpp binding layer (quickjs.hpp) against its
natural-language specification.  The definitions below are a shallow
embedding of the header's data model and control flow:

* engine values are modelled by the inductive `JSVal` (only the structure
  the binding layer inspects: the undefined/null singletons, strings,
  booleans, numbers, plain objects carrying an opaque slot, Error objects
  carrying a message and a stack string, the uncatchable error produced by
  JS_NewUncatchableError, and the JS_EXCEPTION tag);
* the host-visible exception taxonomy (quickjs::value_exception,
  quickjs::value_error, quickjs::throw_exception, quickjs::invalid_context,
  and arbitrary other native exceptions) is the inductive `HostExn`;
* value::do_throw, value::check_throw/handle_pending_exception, the
  closure boundary detail::closures_common::handle_closure_expand, and the
  call-level counter of context are modelled function by function;
* the recursive script/native call scenario of the repository's
  ThrowExceptionPropagation test is reproduced as a recursive function so
  that the cross-boundary exception routing can be settled for every
  nesting depth.
-/

namespace QjsCpp

/-- Engine-level JS values, to the extent the binding layer inspects them. -/
inductive JSVal where
  | undefined
  | jsNull
  | jstr (s : String)
  | jbool (b : Bool)
  | num (n : Int)
  | obj (slot : Nat)
  | errObj (msg : String) (stack : String)
  | uncatchableErr
  | exTag
deriving DecidableEq

/-- JS_IsError: true exactly for engine Error objects (JS_NewUncatchableError
wraps JS_NewError, so its result is an Error object as well).  The
JS_EXCEPTION tag is not an object and is never an Error. -/
def JS_IsError : JSVal → Bool
  | .errObj _ _ => true
  | .uncatchableErr => true
  | _ => false

/-- JS_ToCString, as used by value::as_cstring / value::as_string. -/
def as_cstring : JSVal → String
  | .undefined => "undefined"
  | .jsNull => "null"
  | .jstr s => s
  | .jbool b => if b then "true" else "false"
  | .num n => toString n
  | .obj _ => "[object Object]"
  | .errObj msg _ => msg
  | .uncatchableErr => "Error"
  | .exTag => ""

/-- exval.get_property("stack"): defined (a string) exactly on Error objects. -/
def get_stack_property : JSVal → JSVal
  | .errObj _ stack => .jstr stack
  | _ => .undefined

/-- The C++ exceptions that can cross the native boundary:
value_exception carrying a Value, value_exception carrying only a message
(value::throw_value_exception), value_error (message plus stack),
the internal throw_exception carrying a Value, invalid_context, and any
other native exception type (opaque payload). -/
inductive HostExn where
  | value_exception_val (v : JSVal)
  | value_exception_msg (s : String)
  | value_error (msg : String) (stack : String)
  | throw_exception (v : JSVal)
  | invalid_context
  | native (payload : Nat)
deriving DecidableEq

/-- what() of each host exception, from the constructors in quickjs.hpp:
value_exception(value&&) leaves the message empty; throw_exception::what()
is the fixed string; invalid_context passes "invalid context" to
quickjs::exception. -/
def HostExn.what : HostExn → String
  | .value_exception_val _ => ""
  | .value_exception_msg s => s
  | .value_error msg _ => msg
  | .throw_exception _ => "thrown exception"
  | .invalid_context => "invalid context"
  | .native _ => ""

/-- value::do_throw(exval).  `receiver` is this->val_, the payload of the
Value the failing operation ran on (at engine-failure sites reached through
check_throw this is the JS_EXCEPTION tag); `exval` is the fetched pending
exception; `clevel` is the owning context's call-level counter.  The source:
if JS_IsError(ctx_, val_) then throw value_error(exval message, stack
property of exval, or an empty cstring when undefined); else if clevel_ > 1
then throw throw_exception(exval) else throw value_exception(exval). -/
def do_throw (receiver : JSVal) (exval : JSVal) (clevel : Nat) : HostExn :=
  if JS_IsError receiver then
    .value_error (as_cstring exval)
      (if get_stack_property exval ≠ .undefined then as_cstring (get_stack_property exval) else "")
  else if clevel > 1 then
    .throw_exception exval
  else
    .value_exception_val exval

/-- Result of an engine-level operation (JS_Call / JS_Eval /
JS_CallConstructor): a normal value, or a thrown value together with the
uncatchable mark (JS_SetUncatchableError) that script try/catch honours. -/
inductive EngRes where
  | ok (v : JSVal)
  | thrown (v : JSVal) (uncatchable : Bool)
deriving DecidableEq

/-- Result of a native-boundary call as seen by native code: a returned
Value or a raised C++ exception. -/
inductive NatRes where
  | ok (v : JSVal)
  | raised (e : HostExn)
deriving DecidableEq

/-- The context state the exception bridge uses: excpt_ (the stored pending
native exception token) plus, for the scenario below, the log of
(script frame level, string form) pairs observed by script catch blocks. -/
structure St where
  pending : Option HostExn
  caught : List (Nat × String)
deriving DecidableEq

/-- value::check_throw(true) on a call result: first
handle_pending_exception (pop the context's stored token and rethrow it),
then, if the result carries the exception tag, fetch the pending engine
exception and do_throw it.  The receiver Value of do_throw holds the
JS_EXCEPTION tag at these sites. -/
def check_throw (st : St) (r : EngRes) (clevel : Nat) : NatRes × St :=
  match st.pending with
  | some e => (.raised e, { st with pending := none })
  | none =>
    match r with
    | .ok v => (.ok v, st)
    | .thrown v _ => (.raised (do_throw .exTag v clevel), st)

/-- The catch clauses of detail::closures_common::handle_closure_expand
(and of classes::ctor / invoke_member / invoke_getter / invoke_setter):
a throw_exception becomes a catchable engine throw of its value
(JS_Throw(ctx, e.val().steal())); any other native exception is stored as
the context's pending token and an uncatchable error is thrown
(c->store_exception(std::current_exception());
JS_Throw(ctx, JS_NewUncatchableError(ctx))). -/
def boundary_catch (e : HostExn) (st : St) : EngRes × St :=
  match e with
  | .throw_exception v => (.thrown v false, st)
  | e => (.thrown .uncatchableErr true, { st with pending := some e })

/-- The full closure boundary around a native body whose outcome is `p`:
on normal return, ret.check_throw(true) still runs inside the try block
(so anything it raises is converted by the catch clauses); a raised
exception goes through the catch clauses. -/
def closure_boundary (clevel : Nat) (p : NatRes × St) : EngRes × St :=
  match p with
  | (.ok v, st) =>
    match check_throw st (.ok v) clevel with
    | (.ok v2, st2) => (.ok v2, st2)
    | (.raised e, st2) => boundary_catch e st2
  | (.raised e, st) => boundary_catch e st

/-- One script frame of the ThrowExceptionPropagation test:
call_recursive(l, f, a) runs f inside try/catch, and its catch block
observes any catchable thrown value (logging it) before rethrowing.
Uncatchable errors are not intercepted (JS_SetUncatchableError). -/
def script_try_catch (l : Nat) (p : EngRes × St) : EngRes × St :=
  match p with
  | (.ok v, st) => (.ok v, st)
  | (.thrown v false, st) =>
      (.thrown v false, { st with caught := st.caught ++ [(l, as_cstring v)] })
  | (.thrown v true, st) => (.thrown v true, st)

/-- What the innermost native handler does in the scenario. -/
inductive NativeAction where
  | throwWrapped (s : String)
  | returnNormal (s : String)
  | throwNative (payload : Nat)
deriving DecidableEq

/-- The innermost (level 0) handler body: it either throws
quickjs::throw_exception wrapping a plain string value, returns normally,
or throws an unrelated native exception. -/
def handler_base (act : NativeAction) (st : St) : NatRes × St :=
  match act with
  | .throwWrapped s => (.raised (.throw_exception (.jstr s)), st)
  | .returnNormal s => (.ok (.jstr s), st)
  | .throwNative p => (.raised (.native p), st)

/-- The script frame call_recursive(l, f, a) of the
ThrowExceptionPropagation test, executing while `clevel` boundary calls
(functions::call_common_args frames, each holding a scoped
context::call_level increment) are active.  At level l+1 the native handler
invoked by this frame calls func(l, ...) through value::operator(), which
increments the call level, performs JS_Call (the recursive script frame)
and then check_throw(true) while the increment is still in scope. -/
def call_recursive (act : NativeAction) : Nat → Nat → St → EngRes × St
  | clevel, 0, st =>
      script_try_catch 0 (closure_boundary clevel (handler_base act st))
  | clevel, l + 1, st =>
      let inner := call_recursive act (clevel + 1) l st
      let natr := check_throw inner.2 inner.1 (clevel + 1)
      script_try_catch (l + 1) (closure_boundary clevel natr)

/-- The outermost native call of the scenario:
g_.call_member("call_recursive", depth, f, action) enters
functions::call_common_args once (call level 0 becomes 1), runs the script
frame at the given depth and applies check_throw(true). -/
def call_member_scenario (act : NativeAction) (depth : Nat) : NatRes × St :=
  let p := call_recursive act 1 depth ⟨none, []⟩
  check_throw p.2 p.1 1

/-- In do_throw, the receiver of an engine failure holds the JS_EXCEPTION
tag (never an Error object), so with the call-level counter at 2 or more
the internal throw_exception is raised. -/
theorem do_throw_deep (v : JSVal) (clevel : Nat) :
    do_throw .exTag v (clevel + 1 + 1) = .throw_exception v := by
  have h : 1 < clevel + 1 + 1 := by omega
  simp [do_throw, JS_IsError, h]

/-- At call level 1 (the outermost boundary call), do_throw on an engine
failure raises value_exception carrying the thrown value. -/
theorem do_throw_shallow (v : JSVal) :
    do_throw .exTag v 1 = .value_exception_val v := by
  simp [do_throw, JS_IsError]

/-- Propagation of a wrapped plain-value throw from the innermost handler:
every script frame 0..l catches and logs the value, and the frame rethrows
it catchably, with the pending token never used. -/
theorem call_recursive_throwWrapped (s : String) (l : Nat) :
    ∀ (clevel : Nat) (caught : List (Nat × String)),
      call_recursive (.throwWrapped s) (clevel + 1) l ⟨none, caught⟩ =
        (.thrown (.jstr s) false,
          ⟨none, caught ++ (List.range (l + 1)).map (fun i => (i, s))⟩) := by
  induction l with
  | zero =>
    intro clevel caught
    simp [call_recursive, handler_base, closure_boundary, boundary_catch,
      script_try_catch, as_cstring, List.range_succ]
  | succ l ih =>
    intro clevel caught
    simp only [call_recursive, ih (clevel + 1) caught]
    simp [check_throw, do_throw_deep, closure_boundary, boundary_catch,
      script_try_catch, as_cstring, List.range_succ]

/-- Propagation of a non-throw_exception native exception: every boundary
stores it as the pending token and throws the uncatchable error, so no
script catch block logs anything. -/
theorem call_recursive_throwNative (p : Nat) (l : Nat) :
    ∀ (clevel : Nat) (caught : List (Nat × String)),
      call_recursive (.throwNative p) clevel l ⟨none, caught⟩ =
        (.thrown .uncatchableErr true, ⟨some (.native p), caught⟩) := by
  induction l with
  | zero =>
    intro clevel caught
    simp [call_recursive, handler_base, closure_boundary, boundary_catch,
      script_try_catch]
  | succ l ih =>
    intro clevel caught
    simp only [call_recursive, ih (clevel + 1) caught]
    simp [check_throw, closure_boundary, boundary_catch, script_try_catch]

/-- Full trace of the scenario for a wrapped plain-value throw at any
nesting depth: the outermost native caller receives value_exception
carrying the original value, and every script frame 0..depth (the
intermediate ones included) observed the thrown value in its catch block. -/
theorem throwWrapped_scenario (s : String) (depth : Nat) :
    call_member_scenario (.throwWrapped s) depth =
      (.raised (.value_exception_val (.jstr s)),
        ⟨none, (List.range (depth + 1)).map (fun i => (i, s))⟩) := by
  simp [call_member_scenario, call_recursive_throwWrapped s depth 0 [],
    check_throw, do_throw_shallow]

/-- Full trace of the scenario for a forwarded native exception at any
nesting depth: the outermost native caller receives the original native
exception and no script catch block observed anything. -/
theorem throwNative_scenario (p : Nat) (depth : Nat) :
    call_member_scenario (.throwNative p) depth = (.raised (.native p), ⟨none, []⟩) := by
  simp [call_member_scenario, call_recursive_throwNative p depth 1 [], check_throw]

example :
    call_member_scenario (.throwWrapped "did throw") 3 =
      (.raised (.value_exception_val (.jstr "did throw")),
        ⟨none, [(0, "did throw"), (1, "did throw"), (2, "did throw"), (3, "did throw")]⟩) := by
  rfl

example :
    call_member_scenario (.throwNative 42) 3 = (.raised (.native 42), ⟨none, []⟩) := by
  rfl

example :
    call_member_scenario (.returnNormal "stop recursion") 3 =
      (.ok (.jstr "stop recursion"), ⟨none, []⟩) := by
  rfl

/-- Claim C1, counterexample.  A native callback throwing
quickjs::throw_exception around a plain string value while nested three
boundary calls deep (call level > 1) does reach the outermost native caller
as value_exception carrying the value, but every intermediate script
try/catch frame observes the thrown value on the way out: frame 1 (an
intermediate frame) logs it, so the claim that no intermediate script
try/catch observes the thrown value is false. -/
theorem claim_C1_counterexample :
    call_member_scenario (.throwWrapped "did throw") 3 =
      (.raised (.value_exception_val (.jstr "did throw")),
        ⟨none, [(0, "did throw"), (1, "did throw"), (2, "did throw"), (3, "did throw")]⟩) ∧
    (1, "did throw") ∈ (call_member_scenario (.throwWrapped "did throw") 3).2.caught := by
  exact ⟨by rfl, by decide⟩

/-- Claim C1, amended.  Throwing a wrapped plain (non-Error) value from a
native callback nested more than one boundary-call level deep re-raises it
as the internal throw_exception (first conjunct: do_throw at call level
at least 2 on an engine failure), which each enclosing native boundary
converts back into a catchable engine throw; consequently every
intermediate script try/catch frame observes the thrown value and rethrows
it, and the outermost native caller receives the original value as a
value_exception (second conjunct: the full trace at every depth). -/
theorem claim_C1_amended :
    (∀ (v : JSVal) (cl : Nat), do_throw .exTag v (cl + 1 + 1) = .throw_exception v) ∧
    (∀ (s : String) (depth : Nat),
      call_member_scenario (.throwWrapped s) depth =
        (.raised (.value_exception_val (.jstr s)),
          ⟨none, (List.range (depth + 1)).map (fun i => (i, s))⟩)) :=
  ⟨do_throw_deep, throwWrapped_scenario⟩

/-- Claim C2, confirmed.  A native exception that is not a
quickjs::throw_exception, thrown inside a callback invoked from script:
the boundary stores it as the owning context's pending token and throws an
uncatchable engine error (first conjunct); the nearest enclosing native
boundary call pops the token and rethrows the exception with its original
identity (second conjunct, check_throw on a state with a stored token);
and across any nesting depth no script catch block ever observes anything
while the outermost native caller receives the original native exception
with its payload intact (third conjunct). -/
theorem claim_C2_native_exception_forwarding :
    (∀ (p : Nat) (st : St),
      boundary_catch (.native p) st =
        (.thrown .uncatchableErr true, { st with pending := some (.native p) })) ∧
    (∀ (p : Nat) (caught : List (Nat × String)) (r : EngRes) (cl : Nat),
      check_throw ⟨some (.native p), caught⟩ r cl = (.raised (.native p), ⟨none, caught⟩)) ∧
    (∀ (p depth : Nat),
      call_member_scenario (.throwNative p) depth = (.raised (.native p), ⟨none, []⟩)) := by
  refine ⟨fun p st => rfl, fun p caught r cl => rfl, throwNative_scenario⟩

/-- Claim C7, counterexample.  An engine-side operation that fails with a
thrown script Error object (here a TypeError) raises value_exception
carrying the error value, not the value_error type: do_throw tests
JS_IsError on the receiver Value of the failing operation, whose payload at
these sites is the JS_EXCEPTION tag, never the thrown Error object.  (The
repository test CallGlobalFunction expects exactly this value_exception
for the "TypeError: not a function" failure.) -/
theorem claim_C7_counterexample :
    check_throw ⟨none, []⟩
        (.thrown (.errObj "TypeError: not a function" "    at (none)") false) 1 =
      (.raised (.value_exception_val (.errObj "TypeError: not a function" "    at (none)")),
        ⟨none, []⟩) ∧
    (HostExn.value_exception_val (.errObj "TypeError: not a function" "    at (none)")) ≠
      .value_error "TypeError: not a function" "    at (none)" := by
  exact ⟨by rfl, by decide⟩

/-- Claim C7, amended.  An engine-side failure whose thrown value is an
Error object surfaces at the outermost boundary as value_exception carrying
that error value (first conjunct), because the receiver of do_throw holds
the JS_EXCEPTION tag there; the value_error special case, carrying the
error message together with the engine's own "stack" property, fires
exactly when the Value the failing operation was invoked on is itself an
Error object (second conjunct). -/
theorem claim_C7_amended :
    (∀ (caught : List (Nat × String)) (msg stack : String) (u : Bool),
      check_throw ⟨none, caught⟩ (.thrown (.errObj msg stack) u) 1 =
        (.raised (.value_exception_val (.errObj msg stack)), ⟨none, caught⟩)) ∧
    (∀ (rmsg rstack msg stack : String) (cl : Nat),
      do_throw (.errObj rmsg rstack) (.errObj msg stack) cl = .value_error msg stack) := by
  constructor
  · intro caught msg stack u
    simp [check_throw, do_throw_shallow]
  · intro rmsg rstack msg stack cl
    simp [do_throw, JS_IsError, get_stack_property, as_cstring]

/-! Values, contexts and the invalid-handle conditions (value::validate,
context::validate). -/

/-- The observable state of a quickjs::value: ctx_ (none models a null
JSContext pointer, i.e. an invalid Value: default-constructed, moved-from,
stolen, or abandoned) together with the payload val_. -/
structure ValueModel where
  ctx : Option Nat
  val : JSVal
deriving DecidableEq

/-- value::valid(): ctx_ != nullptr. -/
def value_valid (v : ValueModel) : Bool := v.ctx.isSome

/-- value::validate(): if (!valid()) throw_value_exception("no context"),
and value::throw_value_exception(msg) throws value_exception(msg). -/
def value_validate (v : ValueModel) : Option HostExn :=
  if value_valid v then none else some (.value_exception_msg "no context")

/-- value::is_null(): validate, then JS_IsNull(val_). -/
def value_is_null (v : ValueModel) : Except HostExn Bool :=
  match value_validate v with
  | some e => .error e
  | none => .ok (v.val = .jsNull)

/-- value::is_undefined(): validate, then JS_IsUndefined(val_). -/
def value_is_undefined (v : ValueModel) : Except HostExn Bool :=
  match value_validate v with
  | some e => .error e
  | none => .ok (v.val = .undefined)

/-- value::as_cstring() (and so the throwing value::as_string()):
validate, then JS_ToCString. -/
def value_as_string (v : ValueModel) : Except HostExn String :=
  match value_validate v with
  | some e => .error e
  | none => .ok (as_cstring v.val)

/-- value::steal(): validate, then hand out the raw engine reference and
null ctx_ (the zeroed-out val_ is modelled as undefined; it is never read
again, since ctx_ is null). -/
def value_steal (v : ValueModel) : Except HostExn (JSVal × ValueModel) :=
  match value_validate v with
  | some e => .error e
  | none => .ok (v.val, ⟨none, .undefined⟩)

/-- The observable state of a quickjs::context: the engine context owned
through the unique_ptr ctx_, and whether the owning-runtime pointer
owner_ is set. -/
structure ContextModel where
  ctxPtr : Option Nat
  hasOwner : Bool
deriving DecidableEq

/-- context::valid(): owner_ != nullptr && ctx_. -/
def context_valid (c : ContextModel) : Bool := c.hasOwner && c.ctxPtr.isSome

/-- context::validate(): if (!valid()) throw invalid_context(), the typed
exception whose message is "invalid context". -/
def context_validate (c : ContextModel) : Option HostExn :=
  if context_valid c then none else some .invalid_context

/-- Claim C4, counterexample.  A method invoked on an invalid Value raises
value_exception with message "no context", not the typed invalid_context
exception with message "invalid context". -/
theorem claim_C4_counterexample :
    value_is_null ⟨none, .undefined⟩ = .error (.value_exception_msg "no context") ∧
    HostExn.value_exception_msg "no context" ≠ .invalid_context ∧
    HostExn.what (.value_exception_msg "no context") ≠ "invalid context" := by
  exact ⟨rfl, by decide, by decide⟩

/-- Claim C4, amended.  Every method on an invalid Value (null ctx_) raises
value_exception whose message is "no context"; the invalid_context
exception with message "invalid context" is what operations on an invalid
Context raise. -/
theorem claim_C4_amended :
    (∀ jv : JSVal,
      value_is_null ⟨none, jv⟩ = .error (.value_exception_msg "no context") ∧
      value_is_undefined ⟨none, jv⟩ = .error (.value_exception_msg "no context") ∧
      value_as_string ⟨none, jv⟩ = .error (.value_exception_msg "no context") ∧
      value_steal ⟨none, jv⟩ = .error (.value_exception_msg "no context")) ∧
    context_validate ⟨none, false⟩ = some .invalid_context ∧
    HostExn.what .invalid_context = "invalid context" := by
  exact ⟨fun jv => ⟨rfl, rfl, rfl, rfl⟩, rfl, rfl⟩

/-! context::make_object and constructor dispatch (detail::classes::ctor). -/

/-- What the native constructor invoked through class_make_inst does. -/
inductive CtorBehavior where
  | ctorOk (instAddr : Nat)
  | ctorThrowJS (v : JSVal)
  | ctorThrowNative (p : Nat)
deriving DecidableEq

/-- detail::classes::ctor around class_make_inst, as invoked by
JS_CallConstructor: a successful native construction stores the instance in
the new object's opaque slot; a quickjs::throw_exception from the native
constructor is caught and re-thrown as a catchable engine throw of its
value (JS_Throw(ctx, e.val().steal())); any other native exception is
stored as the context's pending token and an uncatchable error is thrown.
The result pairs the engine-level outcome with the stored token. -/
def classes_ctor : CtorBehavior → EngRes × Option HostExn
  | .ctorOk a => (.ok (.obj a), none)
  | .ctorThrowJS v => (.thrown v false, none)
  | .ctorThrowNative p => (.thrown .uncatchableErr true, some (.native p))

/-- detail::classes::get_inst: read the object's opaque slot
(JS_GetOpaque). -/
def get_inst : JSVal → Option Nat
  | .obj a => some a
  | _ => none

/-- context::make_object: call the registered constructor via
JS_CallConstructor, then ret.check_throw(true); only when check_throw does
not raise, assign the out-parameter: the extracted instance when the result
is valid and not is_exception() (JS_IsError), the empty value otherwise.
`prev` is the caller's out-parameter before the call; when a host exception
is raised the assignment is never reached and `prev` survives.  `clevel` is
the context's call-level counter at the time of the call. -/
def make_object (clevel : Nat) (b : CtorBehavior) (prev : Option Nat) :
    Except HostExn JSVal × Option Nat :=
  let rt := classes_ctor b
  match rt.2 with
  | some e => (.error e, prev)
  | none =>
    match rt.1 with
    | .thrown v _ => (.error (do_throw .exTag v clevel), prev)
    | .ok v => if JS_IsError v then (.ok v, none) else (.ok v, get_inst v)

/-- Claim C8, counterexample.  When the registered constructor throws a
wrapped value ("the exception"), make_object does not return a Value
carrying the converted error and does not clear the out-parameter: it
raises value_exception to the caller and the out-parameter keeps its prior
content (here, the stale instance address 7). -/
theorem claim_C8_counterexample :
    make_object 0 (.ctorThrowJS (.jstr "the exception")) (some 7) =
      (.error (.value_exception_val (.jstr "the exception")), some 7) ∧
    (some 7 : Option Nat) ≠ none := by
  exact ⟨rfl, by decide⟩

/-- Claim C8, amended.  make_object assigns the out-parameter with the
instance extracted from the result object's opaque slot on success; on a
failed or throwing construction the converted error is raised to the caller
as a host exception (value_exception at call level at most 1, the internal
throw_exception when nested deeper, or the original native exception
rethrown from the pending token) and the out-parameter is left unchanged. -/
theorem claim_C8_amended :
    (∀ (clevel a : Nat) (prev : Option Nat),
      make_object clevel (.ctorOk a) prev = (.ok (.obj a), some a)) ∧
    (∀ (clevel : Nat) (v : JSVal) (prev : Option Nat),
      make_object clevel (.ctorThrowJS v) prev =
        (.error (if clevel > 1 then .throw_exception v else .value_exception_val v), prev)) ∧
    (∀ (clevel p : Nat) (prev : Option Nat),
      make_object clevel (.ctorThrowNative p) prev = (.error (.native p), prev)) := by
  refine ⟨fun clevel a prev => rfl, fun clevel v prev => ?_, fun clevel p prev => rfl⟩
  simp only [make_object, classes_ctor, do_throw, JS_IsError, Bool.false_eq_true,
    if_false]

/-! Variadic call marshaling (detail::jsvalue_list), value::operator() and
context::call_global. -/

/-- A native argument at a variadic call site, covering the new_jsvalue
overloads of detail::jsvalue_list that the claims touch.  A quickjs::value
argument is duplicated when valid and marshaled as undefined when not. -/
inductive HostArg where
  | hval (v : Option JSVal)
  | hstr (s : String)
  | hbool (b : Bool)
  | hi32 (n : Int)
  | hu32 (n : Nat)
  | hi64 (n : Int)
deriving DecidableEq

/-- static_cast of a uint32_t (a natural below 2^32) to int32_t:
two's-complement reinterpretation. -/
def to_int32 (n : Nat) : Int :=
  if n % 4294967296 < 2147483648 then ((n % 4294967296 : Nat) : Int)
  else ((n % 4294967296 : Nat) : Int) - 4294967296

/-- detail::jsvalue_list::new_jsvalue: the uint32_t overload calls
JS_NewInt32(ctx_, static_cast of val to int32_t). -/
def new_jsvalue : HostArg → JSVal
  | .hval (some v) => v
  | .hval none => .undefined
  | .hstr s => .jstr s
  | .hbool b => .jbool b
  | .hi32 n => .num n
  | .hu32 n => .num (to_int32 n)
  | .hi64 n => .num n

/-- The shape of one engine call: the this receiver passed to JS_Call and
the marshaled positional argument array. -/
structure CallShape where
  thisVal : JSVal
  argv : List JSVal
deriving DecidableEq

/-- value::operator(): forwards to functions::call with
thisObj = value::undefined(ctx_) and the arguments marshaled one by one
through jsvalue_list into the contiguous engine argument array. -/
def value_call_op (hargs : List HostArg) : CallShape :=
  ⟨.undefined, hargs.map new_jsvalue⟩

/-- context::call_global(name, args...):
get_global_object().get_property(name)(value::undefined(ctx_), args...),
i.e. the looked-up global is invoked through value::operator() with an
extra leading value::undefined argument. -/
def call_global (hargs : List HostArg) : CallShape :=
  value_call_op (.hval (some .undefined) :: hargs)

/-- Claim C9, confirmed.  call_global invokes the looked-up global with
this = undefined and with n+1 positional arguments: a leading undefined
value (the receiver value that call_global builds is forwarded to
operator(), which treats it as an ordinary first argument) followed by the
marshaled arguments. -/
theorem claim_C9_call_global_shape :
    ∀ (hargs : List HostArg),
      call_global hargs = ⟨.undefined, .undefined :: hargs.map new_jsvalue⟩ ∧
      (call_global hargs).argv.length = hargs.length + 1 := by
  intro hargs
  refine ⟨rfl, ?_⟩
  simp [call_global, value_call_op]

/-- Claim C10, confirmed.  A uint32_t argument at a variadic call site is
marshaled through JS_NewInt32 after a static_cast to int32_t, so every
value of at least 2^31 reaches the engine as the corresponding negative
two's-complement number. -/
theorem claim_C10_uint32_reinterpret (n : Nat) (h1 : n < 4294967296)
    (h2 : 2147483648 ≤ n) :
    new_jsvalue (.hu32 n) = .num ((n : Int) - 4294967296) ∧
      ((n : Int) - 4294967296) < 0 := by
  have hm : n % 4294967296 = n := Nat.mod_eq_of_lt h1
  constructor
  · simp only [new_jsvalue, to_int32, hm]
    rw [if_neg (by omega)]
  · omega

/-- Witness for claim C10 at the concrete argument 3000000000. -/
theorem claim_C10_witness :
    new_jsvalue (.hu32 3000000000) = .num (((3000000000 : Nat) : Int) - 4294967296) ∧
      (((3000000000 : Nat) : Int) - 4294967296) < 0 :=
  claim_C10_uint32_reinterpret 3000000000 (by norm_num) (by norm_num)

/-! The quickjs::args view and the positional expansion of closures. -/

/-- The quickjs::args constructor args(ctx, N, this_obj, argc, argv):
a vector of size max(N, argc); the first loop copies (duplicating) the argc
call arguments into positions 0..argc-1; the second loop fills positions
argc..N-1 with value::undefined. -/
def args_build (N : Nat) (argv : List JSVal) : List JSVal :=
  (List.range (max N argv.length)).map
    (fun i => if i < argv.length then argv.getD i .undefined else .undefined)

/-- The positional expansion performed by
closures_common::handle_closure_expand: the callable receives
f(convert(a[0]), ..., convert(a[N-1])) where N is the declared positional
arity and a the args view (the conversion adaptor for value-typed
parameters is the pass-through, modelled here). -/
def positional_expansion (N : Nat) (argv : List JSVal) : List JSVal :=
  (List.range N).map (fun i => (args_build N argv).getD i .undefined)

theorem args_build_getD (N : Nat) (argv : List JSVal) (i : Nat) :
    (args_build N argv).getD i .undefined =
      if i < argv.length then argv.getD i .undefined else .undefined := by
  simp only [args_build, List.getD_eq_getElem?_getD, List.getElem?_map]
  rcases Nat.lt_or_ge i (max N argv.length) with h | h
  · rw [List.getElem?_range h]
    simp [List.getD_eq_getElem?_getD]
  · rw [List.getElem?_eq_none (by simpa using h)]
    simp only [Option.map_none', Option.getD_none]
    rw [if_neg (by omega)]

theorem positional_expansion_eq_take (N : Nat) (argv : List JSVal) :
    positional_expansion N argv = (args_build N argv).take N := by
  apply List.ext_getElem
  · simp [positional_expansion, args_build]
  · intro i h1 h2
    simp only [positional_expansion, List.getElem_map, List.getElem_range,
      List.getElem_take]
    have hi : i < N := by
      simpa [positional_expansion] using h1
    have hlen : i < (args_build N argv).length := by
      simp only [args_build, List.length_map, List.length_range]
      omega
    rw [List.getD_eq_getElem?_getD, List.getElem?_eq_getElem hlen]
    rfl

/-- Claim C5, confirmed.  For a native closure of declared positional arity
N invoked with the script-side argument list argv (of length k): the args
view has length max(N, k); position i of the view is the i-th script
argument when i < k and undefined otherwise (in particular positions
k..N-1 when k < N); the positional parameters are exactly the first N
entries of the view, so excess arguments when k > N are truncated from the
positional expansion while the view retains the full original argument
count. -/
theorem claim_C5_args_padding_truncation :
    ∀ (N : Nat) (argv : List JSVal),
      (args_build N argv).length = max N argv.length ∧
      (∀ i : Nat, (args_build N argv).getD i .undefined =
        if i < argv.length then argv.getD i .undefined else .undefined) ∧
      positional_expansion N argv = (args_build N argv).take N ∧
      (positional_expansion N argv).length = N := by
  intro N argv
  refine ⟨?_, args_build_getD N argv, positional_expansion_eq_take N argv, ?_⟩
  · simp [args_build]
  · simp [positional_expansion]

/-! The runtime's weak-identity table for shared native instances. -/

/-- runtime::inst_ref: a reference count plus the non-owning engine value
handle (weak_val_). -/
structure inst_ref where
  refs : Nat
  weak_val : Nat
deriving DecidableEq

/-- Lookup in the runtime's weak_object_refs_ map, keyed by the native
instance address. -/
def table_find : List (Nat × inst_ref) → Nat → Option inst_ref
  | [], _ => none
  | (k, r) :: rest, inst => if k = inst then some r else table_find rest inst

/-- runtime::ref_inst_value: std::map::insert keeps an existing entry for
the instance (so the originally stored weak handle survives), then the
reference count of the found-or-inserted entry is incremented; a fresh
entry therefore starts at one reference with the given handle. -/
def ref_inst_value : List (Nat × inst_ref) → Nat → Nat → List (Nat × inst_ref)
  | [], inst, weak => [(inst, ⟨1, weak⟩)]
  | (k, r) :: rest, inst, weak =>
      if k = inst then (k, ⟨r.refs + 1, r.weak_val⟩) :: rest
      else (k, r) :: ref_inst_value rest inst weak

/-- runtime::get_inst_value: a found entry hands back a duplicate
(JS_DupValue) of the stored weak handle, i.e. the same engine object. -/
def get_inst_value (t : List (Nat × inst_ref)) (inst : Nat) : Option Nat :=
  (table_find t inst).map inst_ref.weak_val

/-- The runtime's weak-identity state plus a supply of fresh engine object
handles: every JS_NewObjectProtoClass call yields an object distinct from
all existing ones, modelled by the counter. -/
structure WeakState where
  table : List (Nat × inst_ref)
  next_obj : Nat
deriving DecidableEq

/-- detail::classes::class_make_object_for_inst for a shared instance:
if the runtime already holds a weak entry for the instance address, return
a duplicate of the existing wrapper object; otherwise create a fresh object
with the registered class prototype, register it in the weak table
(r.ref_inst_value(inst.get(), obj.val_)) and store the shared instance in
its opaque slot. -/
def class_make_object_for_inst (st : WeakState) (inst : Nat) : Nat × WeakState :=
  match get_inst_value st.table inst with
  | some ref => (ref, st)
  | none => (st.next_obj, ⟨ref_inst_value st.table inst st.next_obj, st.next_obj + 1⟩)

/-- Strict equality between two script object values is object identity. -/
def js_strict_eq_obj (a b : Nat) : Bool := a = b

theorem table_find_ref_self (inst weak : Nat) :
    ∀ (t : List (Nat × inst_ref)), table_find t inst = none →
      table_find (ref_inst_value t inst weak) inst = some ⟨1, weak⟩ := by
  intro t
  induction t with
  | nil => intro _; simp [ref_inst_value, table_find]
  | cons hd rest ih =>
    intro h
    obtain ⟨k, r⟩ := hd
    by_cases hk : k = inst
    · simp [table_find, hk] at h
    · simp only [table_find, hk, if_false] at h
      simp only [ref_inst_value, hk, if_false, table_find]
      exact ih h

theorem table_find_ref_other (inst weak j : Nat) (hj : j ≠ inst) :
    ∀ (t : List (Nat × inst_ref)),
      table_find (ref_inst_value t inst weak) j = table_find t j := by
  intro t
  induction t with
  | nil =>
    simp [ref_inst_value, table_find, Ne.symm hj]
  | cons hd rest ih =>
    obtain ⟨k, r⟩ := hd
    by_cases hk : k = inst
    · subst hk
      simp [ref_inst_value, table_find, Ne.symm hj]
    · simp only [ref_inst_value, hk, if_false, table_find, ih]

/-- Claim C6, confirmed.  For a shared native instance with no wrapper yet,
obtaining a wrapper and then obtaining one again while the first is alive
(its weak-table entry present) yields the very same engine object, so the
two script values are strictly equal; obtaining a wrapper for a distinct
shared instance yields a different engine object, not strictly equal to
the first. -/
theorem claim_C6_shared_instance_identity (st : WeakState) (i1 i2 : Nat)
    (h12 : i1 ≠ i2) (h1 : table_find st.table i1 = none)
    (h2 : table_find st.table i2 = none) :
    js_strict_eq_obj
        ((class_make_object_for_inst (class_make_object_for_inst st i1).2 i1).1)
        ((class_make_object_for_inst st i1).1) = true ∧
    js_strict_eq_obj
        ((class_make_object_for_inst (class_make_object_for_inst st i1).2 i2).1)
        ((class_make_object_for_inst st i1).1) = false := by
  have hm1 : class_make_object_for_inst st i1 =
      (st.next_obj, ⟨ref_inst_value st.table i1 st.next_obj, st.next_obj + 1⟩) := by
    simp [class_make_object_for_inst, get_inst_value, h1]
  have hfind1 : table_find (ref_inst_value st.table i1 st.next_obj) i1 =
      some ⟨1, st.next_obj⟩ := table_find_ref_self i1 st.next_obj st.table h1
  have hfind2 : table_find (ref_inst_value st.table i1 st.next_obj) i2 = none := by
    rw [table_find_ref_other i1 st.next_obj i2 (fun h => h12 h.symm) st.table]
    exact h2
  constructor
  · rw [hm1]
    simp [class_make_object_for_inst, get_inst_value, hfind1, js_strict_eq_obj]
  · rw [hm1]
    simp [class_make_object_for_inst, get_inst_value, hfind2, js_strict_eq_obj]

/-- Witness for claim C6: an empty weak table, instance addresses 10
and 20. -/
theorem claim_C6_witness :
    js_strict_eq_obj
        ((class_make_object_for_inst
          (class_make_object_for_inst ⟨[], 0⟩ 10).2 10).1)
        ((class_make_object_for_inst (⟨[], 0⟩ : WeakState) 10).1) = true ∧
    js_strict_eq_obj
        ((class_make_object_for_inst
          (class_make_object_for_inst ⟨[], 0⟩ 10).2 20).1)
        ((class_make_object_for_inst (⟨[], 0⟩ : WeakState) 10).1) = false :=
  claim_C6_shared_instance_identity ⟨[], 0⟩ 10 20 (by decide) rfl rfl

/-! Bulk teardown: context::~context, context::abandon, runtime::~runtime. -/

/-- A Value as seen by the handle tracker: its own copy of the JSContext
pointer (ctx_) and its owner_ back-pointer (the tracking context's
identity). -/
structure tracked_value where
  ctx : Option Nat
  owner : Option Nat
deriving DecidableEq

/-- value::abandon(): release the reference, unlink, null owner_ and
ctx_. -/
def value_abandon (_v : tracked_value) : tracked_value := ⟨none, none⟩

/-- value::valid(): ctx_ != nullptr. -/
def tracked_value_valid (v : tracked_value) : Bool := v.ctx.isSome

/-- A Context as seen by the runtime's handle tracker: its engine context
(ctx_), its owner_ flag, and the identities of the Values its own tracker
holds. -/
structure tracked_context where
  ctxPtr : Option Nat
  hasOwner : Bool
  values : List Nat
deriving DecidableEq

/-- context::valid(): owner_ != nullptr && ctx_. -/
def tracked_context_valid (c : tracked_context) : Bool :=
  c.hasOwner && c.ctxPtr.isSome

/-- context::abandon(), invoked by runtime::~runtime on every tracked
context: cleanup_classes, clear the engine-context opaque, reset ctx_
(freeing the engine context), unlink from the runtime and null owner_.
The Values tracked by the context are not visited. -/
def context_abandon_t (c : tracked_context) : tracked_context :=
  ⟨none, false, c.values⟩

/-- The live host objects of one runtime: the host-referenced value
objects, the host-referenced context objects (association lists keyed by
object identity), and the runtime's tracked-context list. -/
structure World where
  vals : List (Nat × tracked_value)
  ctxs : List (Nat × tracked_context)
  rt_ctxs : List Nat
deriving DecidableEq

def alist_find {α : Type} : List (Nat × α) → Nat → Option α
  | [], _ => none
  | (k, x) :: rest, key => if k = key then some x else alist_find rest key

/-- context::~context for the context object cid: values_.for_each abandons
every tracked Value, then the context untracks itself from the runtime and
releases the engine context (the context object itself disappears). -/
def context_dtor (w : World) (cid : Nat) : World :=
  match alist_find w.ctxs cid with
  | none => w
  | some c =>
    { vals := w.vals.map (fun p =>
        (p.1, if p.1 ∈ c.values then value_abandon p.2 else p.2)),
      ctxs := w.ctxs.filter (fun p => p.1 ≠ cid),
      rt_ctxs := w.rt_ctxs.filter (fun x => x ≠ cid) }

/-- runtime::~runtime: contexts_.for_each calls context::abandon on every
tracked context; the host-referenced value objects are untouched. -/
def runtime_dtor (w : World) : World :=
  { vals := w.vals,
    ctxs := w.ctxs.map (fun p =>
      (p.1, if p.1 ∈ w.rt_ctxs then context_abandon_t p.2 else p.2)),
    rt_ctxs := [] }

theorem alist_find_map {α β : Type} (g : Nat → α → β) :
    ∀ (l : List (Nat × α)) (k : Nat),
      alist_find (l.map (fun p => (p.1, g p.1 p.2))) k =
        (alist_find l k).map (g k) := by
  intro l k
  induction l with
  | nil => rfl
  | cons hd rest ih =>
    obtain ⟨k2, x⟩ := hd
    by_cases h : k2 = k
    · subst h; simp [alist_find]
    · simp [alist_find, h, ih]

/-- Claim C3, counterexample.  A runtime owning one context (id 5, engine
context 100) that tracks one Value (id 0), both still referenced by host
code: after runtime destruction the context is invalid, but the Value
still holds its raw engine-context pointer and its valid() returns true —
destruction of the Runtime does not transitively invalidate Values of a
host-referenced Context. -/
theorem claim_C3_counterexample :
    alist_find (runtime_dtor
        ⟨[(0, ⟨some 100, some 5⟩)], [(5, ⟨some 100, true, [0]⟩)], [5]⟩).vals 0 =
      some ⟨some 100, some 5⟩ ∧
    tracked_value_valid ⟨some 100, some 5⟩ = true ∧
    alist_find (runtime_dtor
        ⟨[(0, ⟨some 100, some 5⟩)], [(5, ⟨some 100, true, [0]⟩)], [5]⟩).ctxs 5 =
      some ⟨none, false, [0]⟩ ∧
    tracked_context_valid ⟨none, false, [0]⟩ = false := by
  exact ⟨rfl, rfl, rfl, rfl⟩

/-- Claim C3, amended.  Destroying a Context object abandons every Value
it tracks, so each such Value's valid() is false afterwards (first
conjunct).  Destroying a Runtime abandons every Context it tracks, so
each such Context's valid() is false afterwards (second conjunct); but it
does not visit the Values of those Contexts: the host-referenced value
objects are untouched by runtime destruction (third conjunct), so a Value
of a host-referenced Context keeps valid() true until that Context object
itself is destroyed. -/
theorem claim_C3_amended :
    (∀ (w : World) (cid : Nat) (c : tracked_context) (vid : Nat)
        (v : tracked_value),
      alist_find w.ctxs cid = some c → vid ∈ c.values →
      alist_find w.vals vid = some v →
      alist_find (context_dtor w cid).vals vid = some ⟨none, none⟩ ∧
      tracked_value_valid ⟨none, none⟩ = false) ∧
    (∀ (w : World) (cid : Nat) (c : tracked_context),
      cid ∈ w.rt_ctxs → alist_find w.ctxs cid = some c →
      alist_find (runtime_dtor w).ctxs cid = some (context_abandon_t c) ∧
      tracked_context_valid (context_abandon_t c) = false) ∧
    (∀ w : World, (runtime_dtor w).vals = w.vals) := by
  refine ⟨?_, ?_, fun w => rfl⟩
  · intro w cid c vid v hc hv hval
    refine ⟨?_, rfl⟩
    simp only [context_dtor, hc]
    rw [alist_find_map (fun key x => if key ∈ c.values then value_abandon x else x)
      w.vals vid]
    simp [hval, hv, value_abandon]
  · intro w cid c hc hfind
    refine ⟨?_, rfl⟩
    simp only [runtime_dtor]
    rw [alist_find_map (fun key x => if key ∈ w.rt_ctxs then context_abandon_t x else x)
      w.ctxs cid]
    simp [hfind, hc]

/-- Witness for the amended claim C3, at the concrete world of the
counterexample plus a context destruction. -/
theorem claim_C3_amended_witness :
    (alist_find (context_dtor
        ⟨[(0, ⟨some 100, some 5⟩)], [(5, ⟨some 100, true, [0]⟩)], [5]⟩ 5).vals 0 =
      some ⟨none, none⟩ ∧
     tracked_value_valid ⟨none, none⟩ = false) ∧
    (alist_find (runtime_dtor
        ⟨[(0, ⟨some 100, some 5⟩)], [(5, ⟨some 100, true, [0]⟩)], [5]⟩).ctxs 5 =
      some (context_abandon_t ⟨some 100, true, [0]⟩) ∧
     tracked_context_valid (context_abandon_t ⟨some 100, true, [0]⟩) = false) :=
  ⟨claim_C3_amended.1
      ⟨[(0, ⟨some 100, some 5⟩)], [(5, ⟨some 100, true, [0]⟩)], [5]⟩ 5
      ⟨some 100, true, [0]⟩ 0 ⟨some 100, some 5⟩ rfl (by decide) rfl,
   claim_C3_amended.2.1
      ⟨[(0, ⟨some 100, some 5⟩)], [(5, ⟨some 100, true, [0]⟩)], [5]⟩ 5
      ⟨some 100, true, [0]⟩ (by decide) rfl⟩

end QjsCpp
